import Mathlib

/-!
Verification development for the connectivity ETL pipeline
(`pipeline_ETL.py`): a shallow embedding of its transformation and merge
logic, with theorems checking the specification's claims.

The pipeline cleans two tabular datasets (mobile coverage, fixed-access
subscriptions) and inner-joins them on (year, quarter, department,
municipality, provider).  Dataframe cells are modelled as `Option String`
(`none` is pandas `NaN`/`NA`), nullable booleans as `Option Bool`, and
numeric values as `Option ℚ` (`none` is the null numeric value `NaN`;
the numeric columns hold plain decimal literals, which ℚ represents
exactly).
-/

namespace ETL

/-- Nullable boolean: the pandas nullable-boolean dtype
(`True` / `False` / `NA`). -/
abbrev B3 := Option Bool

/-- A dataframe cell: `none` is a missing value (pandas `NaN`/`NA`). -/
abbrev Cell := Option String

/-- Model of pandas `astype(str)` on one cell: a missing value becomes
the literal string "nan". -/
def cellToStr : Cell → String
  | none => "nan"
  | some s => s

/-- Blank characters removed by Python `str.strip`. -/
def isSpaceChar (c : Char) : Bool := c = ' ' || c = '\t' || c = '\n' || c = '\r'

/-- Remove leading blanks from a character list. -/
def dropLeadingSpaces : List Char → List Char
  | [] => []
  | c :: rest => if isSpaceChar c then dropLeadingSpaces rest else c :: rest

/-- Model of Python `str.strip`: remove blanks from both ends. -/
def stripChars (l : List Char) : List Char :=
  dropLeadingSpaces (dropLeadingSpaces l.reverse).reverse

/-- Model of Python `str.strip` on a string. -/
def stripStr (s : String) : String := String.mk (stripChars s.toList)

/-- Model of Python `str.upper` (the data is ASCII). -/
def upperStr (s : String) : String := String.mk (s.toList.map Char.toUpper)

/-- Model of the Python substring test `pat in s`: `pat` occurs
contiguously in `s`. -/
def strContains (s pat : String) : Bool := decide (pat.toList <:+: s.toList)

/-- Kleene logical OR on nullable booleans, the semantics of pandas `|`
on the nullable-boolean dtype: `True` wins, `False | False = False`, and
any remaining combination involving `NA` is `NA`. -/
def kleeneOr : B3 → B3 → B3
  | some true, _ => some true
  | _, some true => some true
  | some false, some false => some false
  | _, _ => none

/-- Technology-marker coercion, `pipeline_ETL.py` lines 52-56:
`astype(str).str.strip().str.upper().map({'S': True, 'N': False})`
then `astype('boolean')`.  A value whose normalized form is neither "S"
nor "N" — including an originally missing cell, which `astype(str)`
turns into the string "nan" — maps to `NA`. -/
def coerceMarker (cell : Cell) : B3 :=
  let s := upperStr (stripStr (cellToStr cell))
  if s = "S" then some true
  else if s = "N" then some false
  else none

/-- Contribution of one nullable-boolean marker to a row-wise sum:
pandas `DataFrame.sum(axis=1)` skips `NA` and counts `True` as 1. -/
def b3ToNat : B3 → Nat
  | some true => 1
  | _ => 0

/-- Derivation of `total_tecnologias`, line 59: row-wise sum of the six
technology markers, with `NA` contributing nothing. -/
def total_tecnologias (markers : List B3) : Nat := (markers.map b3ToNat).sum

/-- Derivation of `tiene_4g_o_mas`, lines 60-64:
`cobertura_4g | cobertura_lte | cobertura_5g`, pandas `|` associating to
the left. -/
def tiene_4g_o_mas (c4g lte c5g : B3) : B3 := kleeneOr (kleeneOr c4g lte) c5g

/-- Embedding of `_clasificar_tecnologia`, lines 106-124: null maps to
OTRA; an exact (post-uppercase) match of ADSL/XDSL/DSL to COBRE; then
the first matching substring among FIBRA, SATELITAL,
WIFI-or-INALAMBRICO, CABLE decides; otherwise OTRA.  The spec names
these labels COPPER, FIBER, SATELLITE, WIRELESS, CABLE, OTHER. -/
def clasificar_tecnologia (tec : Cell) : String :=
  match tec with
  | none => "OTRA"
  | some t =>
    let u := upperStr t
    if u ∈ (["ADSL", "XDSL", "DSL"] : List String) then "COBRE"
    else if strContains u "FIBRA" then "FIBRA"
    else if strContains u "SATELITAL" then "SATELITAL"
    else if strContains u "WIFI" || strContains u "INALAMBRICO" then "INALÁMBRICA"
    else if strContains u "CABLE" then "CABLE"
    else "OTRA"

/-- The six class labels `clasificar_tecnologia` can return. -/
def tecnologia_labels : List String :=
  ["COBRE", "FIBRA", "SATELITAL", "INALÁMBRICA", "CABLE", "OTRA"]

/-- Model of `DataFrame.drop(columns=...)` with the default
`errors='raise'` (lines 27-28 and 77-78 pass no `errors='ignore'`): if
any listed column is absent from the frame the call raises `KeyError`;
otherwise exactly the listed columns are removed.  The frame is
modelled by its list of column names. -/
def dropColumns (cols toDrop : List String) : Except String (List String) :=
  if ∀ c ∈ toDrop, c ∈ cols then
    .ok (cols.filter (fun c => decide (c ∉ toDrop)))
  else .error "KeyError"

/-- The `cols_to_drop` of `transform_cobertura_movil`, line 27. -/
def cobertura_cols_to_drop : List String :=
  ["COD DEPARTAMENTO", "COD MUNICIPIO", "CABECERA MUNICIPAL", "COD CENTRO POBLADO"]

/-- The `cols_to_drop` of `transform_accesos`, line 77. -/
def accesos_cols_to_drop : List String :=
  ["COD_DEPARTAMENTO", "COD_MUNICIPIO", "SEGMENTO"]

/-- Digit test used by the decimal parser. -/
def isDigitChar (c : Char) : Bool := c.isDigit

/-- Value of a digit string. -/
def natOfDigits (l : List Char) : Nat := l.foldl (fun a c => a * 10 + (c.toNat - 48)) 0

/-- Model of Python `float()` on an unsigned plain decimal literal
(digits with at most one point, at least one digit overall): the
grammar subset the numeric columns exercise.  `none` means the literal
is not numeric. -/
def parseUnsignedDec (l : List Char) : Option ℚ :=
  let intPart := l.takeWhile isDigitChar
  match l.dropWhile isDigitChar with
  | [] => if intPart.isEmpty then none else some (natOfDigits intPart : ℚ)
  | '.' :: frac =>
    if frac.all isDigitChar && !(intPart.isEmpty && frac.isEmpty) then
      some ((natOfDigits intPart : ℚ) + (natOfDigits frac : ℚ) / (10 ^ frac.length))
    else none
  | _ => none

/-- Optional leading sign in front of a decimal literal. -/
def parseSignedDec (l : List Char) : Option ℚ :=
  match l with
  | '-' :: rest => (parseUnsignedDec rest).map (fun q => -q)
  | '+' :: rest => parseUnsignedDec rest
  | _ => parseUnsignedDec l

/-- Model of pandas `astype(float)` on one textual cell (line 98):
Python `float()` strips blanks, accepts "nan" case-insensitively as
`NaN` (the null numeric value, modelled `none`), parses a decimal
literal, and raises on any other non-empty value. -/
def astypeFloat (s : String) : Except String (Option ℚ) :=
  let t := stripChars s.toList
  if String.mk (t.map Char.toUpper) = "NAN" then .ok none
  else
    match parseSignedDec t with
    | some q => .ok (some q)
    | none => .error "NumericParseError"

/-- Comma-to-period replacement, `str.replace(',', '.', regex=False)`
on line 97: every comma becomes a period. -/
def replaceCommas (s : String) : String :=
  String.mk (s.toList.map (fun c => if c = ',' then '.' else c))

/-- Numeric coercion of one textual cell, lines 96-98: `astype(str)`
(missing becomes "nan"), then comma replacement, then `astype(float)`. -/
def coerceNumeric (cell : Cell) : Except String (Option ℚ) :=
  astypeFloat (replaceCommas (cellToStr cell))

/-- The five-column join key (year, quarter, department, municipality,
provider) of `merge_datasets`, lines 132/148/163. -/
abbrev JoinKey := String × String × String × String × String

/-- A normalized coverage row, the output schema of
`transform_cobertura_movil` (the six markers are nullable booleans, the
two derived fields are carried per row). -/
structure NormCoverageRow where
  ano : Cell
  trimestre : Cell
  departamento : Cell
  municipio : Cell
  proveedor : Cell
  centro_poblado : Cell
  cobertura_2g : B3
  cobertura_3g : B3
  cobertura_hspa : B3
  cobertura_4g : B3
  cobertura_lte : B3
  cobertura_5g : B3
  total_row : Nat
  tiene_row : B3

/-- A normalized access row, the output schema of `transform_accesos`. -/
structure NormAccessRow where
  ano : Cell
  trimestre : Cell
  departamento : Cell
  municipio : Cell
  proveedor : Cell
  tecnologia : Cell
  velocidad_bajada : Option ℚ
  velocidad_subida : Option ℚ
  no_de_accesos : Option ℚ
  velocidad_total : Option ℚ
  tipo_tecnologia : String

/-- The join key of a coverage row, when all five key cells are
non-null. -/
def covKeyOf (r : NormCoverageRow) : Option JoinKey :=
  match r.ano, r.trimestre, r.departamento, r.municipio, r.proveedor with
  | some a, some t, some d, some m, some p => some (a, t, d, m, p)
  | _, _, _, _, _ => none

/-- The join key of an access row, when all five key cells are
non-null. -/
def accKeyOf (r : NormAccessRow) : Option JoinKey :=
  match r.ano, r.trimestre, r.departamento, r.municipio, r.proveedor with
  | some a, some t, some d, some m, some p => some (a, t, d, m, p)
  | _, _, _, _, _ => none

/-- Rows paired with their join keys.  pandas `groupby` with the
default `dropna=True` excludes a row whose key has a null in any of the
grouping columns, which is what `filterMap` does here. -/
def withKeys {β : Type} (keyOf : β → Option JoinKey) (rows : List β) :
    List (JoinKey × β) :=
  rows.filterMap (fun r => (keyOf r).map (fun k => (k, r)))

/-- The distinct join keys of a keyed row list. -/
def groupKeys {β : Type} (pairs : List (JoinKey × β)) : List JoinKey :=
  (pairs.map Prod.fst).dedup

/-- The rows of one group: all keyed rows whose key is `k`. -/
def membersOf {β : Type} (pairs : List (JoinKey × β)) (k : JoinKey) : List β :=
  (pairs.filter (fun p => decide (p.1 = k))).map Prod.snd

/-- The `'any'` aggregation of `groupby().agg` on a nullable-boolean
column (lines 136-141, 143): true iff some member of the group is
`True`; `NA` members are skipped, so a group of only `NA` and `False`
reduces to `False`.  The result is a plain boolean, never `NA`. -/
def groupAny (xs : List B3) : Bool := xs.any (fun x => decide (x = some true))

/-- Code-point ordering on character lists, as Python `sorted` compares
strings. -/
def ltChars : List Char → List Char → Bool
  | _, [] => false
  | [], _ :: _ => true
  | a :: as, b :: bs =>
    if a.toNat < b.toNat then true
    else if a.toNat = b.toNat then ltChars as bs
    else false

/-- Non-strict string comparison for sorting. -/
def leString (a b : String) : Bool := !(ltChars b.toList a.toList)

/-- The `', '.join(sorted(set(x.dropna())))` aggregation of lines 135,
151 and 156: distinct non-null values, sorted ascending, comma-joined. -/
def joinSortedDistinct (cells : List Cell) : String :=
  String.intercalate ", " (List.mergeSort (cells.filterMap id).dedup leString)

/-- The `'mean'` aggregation on a column of integers (line 142). -/
def meanNat (xs : List Nat) : ℚ := ((xs.map (fun n => (n : ℚ))).sum) / xs.length

/-- The `'mean'` aggregation on a nullable numeric column (lines
152-153, 155): `NaN` members are skipped; an all-`NaN` group is `NaN`. -/
def meanSkipna (xs : List (Option ℚ)) : Option ℚ :=
  let vs := xs.filterMap id
  if vs.isEmpty then none else some (vs.sum / vs.length)

/-- The `'sum'` aggregation on a nullable numeric column (line 154):
`NaN` members are skipped; an all-`NaN` group sums to 0. -/
def sumSkipna (xs : List (Option ℚ)) : ℚ := (xs.filterMap id).sum

/-- One row of `cobertura_grouped` (lines 131-144). -/
structure GroupedCoverageRow where
  key : JoinKey
  centro_poblado : String
  cobertura_2g : Bool
  cobertura_3g : Bool
  cobertura_hspa : Bool
  cobertura_4g : Bool
  cobertura_lte : Bool
  cobertura_5g : Bool
  total_mean : ℚ
  tiene_any : Bool

/-- One row of `accesos_grouped` (lines 147-157). -/
structure GroupedAccessRow where
  key : JoinKey
  tecnologia : String
  velocidad_bajada : Option ℚ
  velocidad_subida : Option ℚ
  no_de_accesos : ℚ
  velocidad_total : Option ℚ
  tipo_tecnologia : String

/-- The per-group aggregation of the coverage `groupby().agg` (lines
134-144): sorted distinct join for `centro_poblado`, `'any'` for the
six markers and `tiene_4g_o_mas`, `'mean'` for `total_tecnologias`. -/
def aggCoverageGroup (k : JoinKey) (ms : List NormCoverageRow) : GroupedCoverageRow where
  key := k
  centro_poblado := joinSortedDistinct (ms.map (·.centro_poblado))
  cobertura_2g := groupAny (ms.map (·.cobertura_2g))
  cobertura_3g := groupAny (ms.map (·.cobertura_3g))
  cobertura_hspa := groupAny (ms.map (·.cobertura_hspa))
  cobertura_4g := groupAny (ms.map (·.cobertura_4g))
  cobertura_lte := groupAny (ms.map (·.cobertura_lte))
  cobertura_5g := groupAny (ms.map (·.cobertura_5g))
  total_mean := meanNat (ms.map (·.total_row))
  tiene_any := groupAny (ms.map (·.tiene_row))

/-- The per-group aggregation of the access `groupby().agg` (lines
150-157): sorted distinct join for `tecnologia` and `tipo_tecnologia`,
`'mean'` for the speeds, `'sum'` for the access count. -/
def aggAccessGroup (k : JoinKey) (ms : List NormAccessRow) : GroupedAccessRow where
  key := k
  tecnologia := joinSortedDistinct (ms.map (·.tecnologia))
  velocidad_bajada := meanSkipna (ms.map (·.velocidad_bajada))
  velocidad_subida := meanSkipna (ms.map (·.velocidad_subida))
  no_de_accesos := sumSkipna (ms.map (·.no_de_accesos))
  velocidad_total := meanSkipna (ms.map (·.velocidad_total))
  tipo_tecnologia := joinSortedDistinct (ms.map (fun r => some r.tipo_tecnologia))

/-- `cobertura_grouped` (lines 131-144): one aggregated row per
distinct join key among the rows with a fully non-null key. -/
def groupCoverage (rows : List NormCoverageRow) : List GroupedCoverageRow :=
  (groupKeys (withKeys covKeyOf rows)).map
    (fun k => aggCoverageGroup k (membersOf (withKeys covKeyOf rows) k))

/-- `accesos_grouped` (lines 147-157). -/
def groupAccess (rows : List NormAccessRow) : List GroupedAccessRow :=
  (groupKeys (withKeys accKeyOf rows)).map
    (fun k => aggAccessGroup k (membersOf (withKeys accKeyOf rows) k))

/-- `pd.merge(cobertura_grouped, accesos_grouped, on=..., how='inner')`
(lines 160-165): each left row pairs with every right row carrying the
same join key; unmatched rows on either side produce nothing. -/
def mergeGrouped (cov : List GroupedCoverageRow) (acc : List GroupedAccessRow) :
    List (GroupedCoverageRow × GroupedAccessRow) :=
  cov.flatMap (fun c => (acc.filter (fun a => decide (a.key = c.key))).map (fun a => (c, a)))

/-! ## Helper lemmas -/

/-- `groupAny` is true exactly when the group has a definitive `True`. -/
theorem groupAny_true_iff (xs : List B3) : groupAny xs = true ↔ some true ∈ xs := by
  simp [groupAny]

/-- The keys of the grouped coverage rows are the distinct keys of the
keyed input rows. -/
theorem groupCoverage_map_key (rows : List NormCoverageRow) :
    (groupCoverage rows).map GroupedCoverageRow.key = groupKeys (withKeys covKeyOf rows) := by
  rw [groupCoverage, List.map_map]
  have h : (GroupedCoverageRow.key ∘ fun k =>
      aggCoverageGroup k (membersOf (withKeys covKeyOf rows) k)) = id := funext fun k => rfl
  rw [h, List.map_id]

/-- The keys of the grouped access rows are the distinct keys of the
keyed input rows. -/
theorem groupAccess_map_key (rows : List NormAccessRow) :
    (groupAccess rows).map GroupedAccessRow.key = groupKeys (withKeys accKeyOf rows) := by
  rw [groupAccess, List.map_map]
  have h : (GroupedAccessRow.key ∘ fun k =>
      aggAccessGroup k (membersOf (withKeys accKeyOf rows) k)) = id := funext fun k => rfl
  rw [h, List.map_id]

/-- Distinct group keys carry no duplicate. -/
theorem groupKeys_nodup {β : Type} (pairs : List (JoinKey × β)) : (groupKeys pairs).Nodup :=
  List.nodup_dedup _

/-- Filtering a list for a key that appears nowhere yields nothing. -/
theorem filter_key_eq_nil {β : Type} (key : β → JoinKey) (l : List β) (k : JoinKey)
    (h : k ∉ l.map key) : l.filter (fun x => decide (key x = k)) = [] := by
  induction l with
  | nil => rfl
  | cons b l ih =>
    simp only [List.map_cons, List.mem_cons] at h
    push_neg at h
    have hb : ¬ (decide (key b = k)) = true := by
      simp only [decide_eq_true_eq]
      exact fun he => h.1 he.symm
    rw [List.filter_cons, if_neg hb]
    exact ih h.2

/-- In a list with pairwise-distinct keys, filtering for one key keeps
one row when the key occurs and none otherwise. -/
theorem length_filter_key {β : Type} (key : β → JoinKey) (l : List β) (k : JoinKey)
    (hn : (l.map key).Nodup) :
    (l.filter (fun x => decide (key x = k))).length = if k ∈ l.map key then 1 else 0 := by
  induction l with
  | nil => simp
  | cons b l ih =>
    simp only [List.map_cons, List.nodup_cons] at hn
    rw [List.filter_cons]
    by_cases hb : key b = k
    · subst hb
      have h0 : l.filter (fun x => decide (key x = key b)) = [] :=
        filter_key_eq_nil key l (key b) hn.1
      simp [h0]
    · have hb' : ¬ (decide (key b = k)) = true := by
        simp only [decide_eq_true_eq]
        exact hb
      rw [if_neg hb', ih hn.2]
      have hkb : k ≠ key b := fun he => hb he.symm
      by_cases hk : k ∈ l.map key <;> simp [List.mem_cons, hkb, hk]

/-- Row count of the inner join per key, when both sides have
pairwise-distinct keys: one when the key is on both sides, zero
otherwise. -/
theorem mergeGrouped_countP (cov : List GroupedCoverageRow) (acc : List GroupedAccessRow)
    (k : JoinKey) (hc : (cov.map GroupedCoverageRow.key).Nodup)
    (ha : (acc.map GroupedAccessRow.key).Nodup) :
    (mergeGrouped cov acc).countP (fun p => decide (p.1.key = k)) =
      if k ∈ cov.map GroupedCoverageRow.key ∧ k ∈ acc.map GroupedAccessRow.key
      then 1 else 0 := by
  induction cov with
  | nil => simp [mergeGrouped]
  | cons c cov ih =>
    simp only [List.map_cons, List.nodup_cons] at hc
    have hstep : mergeGrouped (c :: cov) acc =
        ((acc.filter (fun a => decide (a.key = c.key))).map (fun a => (c, a))) ++
          mergeGrouped cov acc := rfl
    rw [hstep, List.countP_append, List.countP_map]
    by_cases hck : c.key = k
    · subst hck
      have h1 : List.countP ((fun p : GroupedCoverageRow × GroupedAccessRow =>
            decide (p.1.key = c.key)) ∘ fun a => (c, a))
          (acc.filter (fun a => decide (a.key = c.key))) =
          (acc.filter (fun a => decide (a.key = c.key))).length := by
        rw [List.countP_eq_length]
        intro a _
        simp [Function.comp]
      rw [h1, length_filter_key GroupedAccessRow.key acc c.key ha, ih hc.2]
      have h2 : c.key ∉ cov.map GroupedCoverageRow.key := hc.1
      by_cases hacc : c.key ∈ acc.map GroupedAccessRow.key <;>
        simp [hacc, h2, List.mem_cons]
    · have h1 : List.countP ((fun p : GroupedCoverageRow × GroupedAccessRow =>
            decide (p.1.key = k)) ∘ fun a => (c, a))
          (acc.filter (fun a => decide (a.key = c.key))) = 0 := by
        rw [List.countP_eq_zero]
        intro a _
        simp [Function.comp, hck]
      rw [h1, ih hc.2]
      have hkc : k ≠ c.key := fun he => hck he.symm
      by_cases hk : k ∈ cov.map GroupedCoverageRow.key <;>
        by_cases hacc : k ∈ acc.map GroupedAccessRow.key <;>
          simp [List.mem_cons, hkc, hk, hacc]

/-- Keyed rows of a cons, by the shape of the head's key. -/
theorem withKeys_cons {β : Type} (keyOf : β → Option JoinKey) (r : β) (rows : List β) :
    withKeys keyOf (r :: rows) =
      ((keyOf r).map (fun k => (k, r))).toList ++ withKeys keyOf rows := by
  cases h : keyOf r <;> simp [withKeys, List.filterMap_cons, h]

/-- Discarding the rows with a null key cell before keying changes
nothing: `withKeys` already skips exactly those rows. -/
theorem withKeys_filter_isSome {β : Type} (keyOf : β → Option JoinKey) (rows : List β) :
    withKeys keyOf (rows.filter (fun r => (keyOf r).isSome)) = withKeys keyOf rows := by
  induction rows with
  | nil => rfl
  | cons r rows ih =>
    rw [List.filter_cons]
    cases h : keyOf r with
    | none =>
      rw [if_neg (by simp [h]), ih, withKeys_cons, h]
      simp
    | some k =>
      rw [if_pos (by simp [h]), withKeys_cons, withKeys_cons, ih]

/-- Every group key is the key of some input row with a fully non-null
key. -/
theorem exists_source_of_mem_groupKeys {β : Type} (keyOf : β → Option JoinKey)
    (rows : List β) (k : JoinKey) (h : k ∈ groupKeys (withKeys keyOf rows)) :
    ∃ r ∈ rows, keyOf r = some k := by
  rw [groupKeys, List.mem_dedup, List.mem_map] at h
  obtain ⟨p, hp, hk⟩ := h
  rw [withKeys, List.mem_filterMap] at hp
  obtain ⟨r, hr, he⟩ := hp
  rw [Option.map_eq_some'] at he
  obtain ⟨k', hk', hpe⟩ := he
  refine ⟨r, hr, ?_⟩
  have hk2 : k' = k := by rw [← hk, ← hpe]
  rw [hk', hk2]

/-- A merged pair comes from one grouped row of each side. -/
theorem mem_mergeGrouped {cov : List GroupedCoverageRow} {acc : List GroupedAccessRow}
    {p : GroupedCoverageRow × GroupedAccessRow} (h : p ∈ mergeGrouped cov acc) :
    p.1 ∈ cov ∧ p.2 ∈ acc := by
  rw [mergeGrouped, List.mem_flatMap] at h
  obtain ⟨c, hc, hp⟩ := h
  rw [List.mem_map] at hp
  obtain ⟨a, ha, rfl⟩ := hp
  exact ⟨hc, (List.mem_filter.mp ha).1⟩

/-! ## Claim theorems -/

/-- C1 (counterexample): the claim that the initial column drop
tolerates absent columns is false — a dataset carrying none of the
identifying columns makes the drop of either normalizer raise
`KeyError` (lines 28 and 78 call `drop` without `errors='ignore'`). -/
theorem drop_missing_columns_errors :
    dropColumns ["DEPARTAMENTO", "MUNICIPIO", "PROVEEDOR"] cobertura_cols_to_drop
      = .error "KeyError" ∧
    dropColumns ["DEPARTAMENTO", "MUNICIPIO", "PROVEEDOR"] accesos_cols_to_drop
      = .error "KeyError" := ⟨rfl, rfl⟩

/-- C1 (amended): in both normalizers the initial drop of identifying
columns succeeds exactly when every listed column is present; a dataset
missing one or more of them makes the drop raise `KeyError` instead of
acting as a no-op. -/
theorem drop_requires_listed_columns (cols : List String) :
    ((∃ l, dropColumns cols cobertura_cols_to_drop = .ok l) ↔
      ∀ c ∈ cobertura_cols_to_drop, c ∈ cols) ∧
    ((∃ l, dropColumns cols accesos_cols_to_drop = .ok l) ↔
      ∀ c ∈ accesos_cols_to_drop, c ∈ cols) ∧
    ((∃ c ∈ cobertura_cols_to_drop, c ∉ cols) →
      dropColumns cols cobertura_cols_to_drop = .error "KeyError") ∧
    ((∃ c ∈ accesos_cols_to_drop, c ∉ cols) →
      dropColumns cols accesos_cols_to_drop = .error "KeyError") := by
  refine ⟨?_, ?_, ?_, ?_⟩
  · constructor
    · rintro ⟨l, hl⟩
      by_contra h
      simp [dropColumns, h] at hl
    · intro h
      exact ⟨_, by unfold dropColumns; exact if_pos h⟩
  · constructor
    · rintro ⟨l, hl⟩
      by_contra h
      simp [dropColumns, h] at hl
    · intro h
      exact ⟨_, by unfold dropColumns; exact if_pos h⟩
  · rintro ⟨c, hc, hnc⟩
    have h' : ¬ ∀ c ∈ cobertura_cols_to_drop, c ∈ cols := fun hall => hnc (hall c hc)
    simp [dropColumns, h']
  · rintro ⟨c, hc, hnc⟩
    have h' : ¬ ∀ c ∈ accesos_cols_to_drop, c ∈ cols := fun hall => hnc (hall c hc)
    simp [dropColumns, h']

/-- C1 (witness for the amended theorem): the full raw column lists
satisfy the presence condition and the ok branches are reached. -/
theorem drop_requires_listed_columns_witness :
    (∃ l, dropColumns
        (cobertura_cols_to_drop ++ ["DEPARTAMENTO"]) cobertura_cols_to_drop = .ok l) ∧
    (∃ l, dropColumns
        (accesos_cols_to_drop ++ ["DEPARTAMENTO"]) accesos_cols_to_drop = .ok l) := by
  have h := drop_requires_listed_columns (cobertura_cols_to_drop ++ ["DEPARTAMENTO"])
  have h' := drop_requires_listed_columns (accesos_cols_to_drop ++ ["DEPARTAMENTO"])
  exact ⟨h.1.mpr (by decide), h'.2.1.mpr (by decide)⟩

/-- C2 (counterexample): the claim that English substrings classify
like their Spanish counterparts is false — the input "FIBER" classifies
as OTRA (the OTHER label), not as FIBRA (the FIBER label), because
lines 113-124 test only the Spanish substrings. -/
theorem english_fiber_input_classifies_otra :
    clasificar_tecnologia (some "FIBER") = "OTRA" ∧ "OTRA" ≠ "FIBRA" := by
  exact ⟨by decide, by decide⟩

/-- C2 (amended): the classifier matches only the Spanish substrings —
FIBRA yields the FIBER label, SATELITAL the SATELLITE label, and
WIFI/INALAMBRICO the WIRELESS label (case-insensitively) — while
strings containing only the English substrings FIBER, SATELLITE or
WIRELESS fall through to the OTHER label. -/
theorem classifier_matches_spanish_only :
    clasificar_tecnologia (some "FIBER") = "OTRA" ∧
    clasificar_tecnologia (some "SATELLITE") = "OTRA" ∧
    clasificar_tecnologia (some "WIRELESS") = "OTRA" ∧
    clasificar_tecnologia (some "FIBRA") = "FIBRA" ∧
    clasificar_tecnologia (some "fibra optica") = "FIBRA" ∧
    clasificar_tecnologia (some "SATELITAL") = "SATELITAL" ∧
    clasificar_tecnologia (some "WIFI") = "INALÁMBRICA" ∧
    clasificar_tecnologia (some "inalambrico 5.8 GHz") = "INALÁMBRICA" := by
  refine ⟨by decide, by decide, by decide, by decide, by decide, by decide, by decide, by decide⟩

/-- C3: the technology classifier is total — every input, null or not,
maps to one of the six labels COBRE/FIBRA/SATELITAL/INALÁMBRICA/CABLE/
OTRA (the spec's COPPER/FIBER/SATELLITE/WIRELESS/CABLE/OTHER) — the
null check comes first, the exact ADSL/XDSL/DSL check precedes the
substring checks, and the FIBRA check precedes the CABLE check, so
"CABLE FIBRA" classifies as FIBRA (the FIBER label). -/
theorem classifier_total_first_match (tec : Cell) :
    clasificar_tecnologia tec ∈ tecnologia_labels ∧
    clasificar_tecnologia none = "OTRA" ∧
    clasificar_tecnologia (some "ADSL") = "COBRE" ∧
    clasificar_tecnologia (some "CABLE FIBRA") = "FIBRA" := by
  refine ⟨?_, by decide, by decide, by decide⟩
  rcases tec with _ | t
  · simp [clasificar_tecnologia, tecnologia_labels]
  · simp only [clasificar_tecnologia, tecnologia_labels]
    split_ifs <;> simp

/-- C4: the derived `tiene_4g_o_mas` is the Kleene OR of the 4G, LTE
and 5G markers — true iff at least one is definitively true, false iff
all three are definitively false, and `NA` exactly when no marker is
true and at least one is `NA`. -/
theorem tiene_4g_o_mas_kleene (a b c : B3) :
    (tiene_4g_o_mas a b c = some true ↔
      (a = some true ∨ b = some true ∨ c = some true)) ∧
    (tiene_4g_o_mas a b c = some false ↔
      (a = some false ∧ b = some false ∧ c = some false)) ∧
    (tiene_4g_o_mas a b c = none ↔
      (¬(a = some true ∨ b = some true ∨ c = some true) ∧
        (a = none ∨ b = none ∨ c = none))) := by
  revert a b c; decide

/-- C5: in the coverage grouping, each of the six marker columns is
reduced by an OR that treats `NA` as false — each aggregated marker of
`aggCoverageGroup` is true iff some group member is definitively true,
and a group of only `NA` and `False` reduces to `False` — while the
per-row derivation uses the null-propagating `kleeneOr`, for which
`NA OR False` is `NA`, not `False`. -/
theorem group_any_treats_null_as_false :
    (∀ (k : JoinKey) (ms : List NormCoverageRow),
      ((aggCoverageGroup k ms).cobertura_2g = true ↔
        some true ∈ ms.map NormCoverageRow.cobertura_2g) ∧
      ((aggCoverageGroup k ms).cobertura_3g = true ↔
        some true ∈ ms.map NormCoverageRow.cobertura_3g) ∧
      ((aggCoverageGroup k ms).cobertura_hspa = true ↔
        some true ∈ ms.map NormCoverageRow.cobertura_hspa) ∧
      ((aggCoverageGroup k ms).cobertura_4g = true ↔
        some true ∈ ms.map NormCoverageRow.cobertura_4g) ∧
      ((aggCoverageGroup k ms).cobertura_lte = true ↔
        some true ∈ ms.map NormCoverageRow.cobertura_lte) ∧
      ((aggCoverageGroup k ms).cobertura_5g = true ↔
        some true ∈ ms.map NormCoverageRow.cobertura_5g)) ∧
    groupAny [none, some false] = false ∧
    kleeneOr none (some false) = none := by
  refine ⟨fun k ms => ?_, by decide, by decide⟩
  exact ⟨groupAny_true_iff _, groupAny_true_iff _, groupAny_true_iff _,
    groupAny_true_iff _, groupAny_true_iff _, groupAny_true_iff _⟩

/-- C6: marker coercion maps, after trimming and uppercasing, exactly
"S" to true and exactly "N" to false, and everything else — including a
missing cell — to `NA`, never silently to false. -/
theorem marker_coercion_exact :
    (∀ cell : Cell,
      (coerceMarker cell = some true ↔ upperStr (stripStr (cellToStr cell)) = "S") ∧
      (coerceMarker cell = some false ↔ upperStr (stripStr (cellToStr cell)) = "N") ∧
      (coerceMarker cell = none ↔
        (upperStr (stripStr (cellToStr cell)) ≠ "S" ∧
          upperStr (stripStr (cellToStr cell)) ≠ "N"))) ∧
    coerceMarker none = none ∧
    coerceMarker (some " s ") = some true ∧
    coerceMarker (some "n") = some false ∧
    coerceMarker (some "X") = none ∧
    coerceMarker (some "") = none := by
  refine ⟨fun cell => ?_, by decide, by decide, by decide, by decide, by decide⟩
  by_cases h1 : upperStr (stripStr (cellToStr cell)) = "S" <;>
    by_cases h2 : upperStr (stripStr (cellToStr cell)) = "N" <;>
      simp [coerceMarker, h1, h2]

/-- C7: the derived `total_tecnologias` equals the number of the six
technology markers that are definitively true (an `NA` marker
contributes nothing), and therefore lies in [0, 6]. -/
theorem total_tecnologias_counts_true_markers (a b c d e f : B3) :
    total_tecnologias [a, b, c, d, e, f] =
      List.countP (fun x => decide (x = some true)) [a, b, c, d, e, f] ∧
    total_tecnologias [a, b, c, d, e, f] ≤ 6 := by
  revert a b c d e f; decide

/-- C8: numeric coercion replaces every comma with a period before
parsing, so "12,5" and "12.5" coerce to the identical value 25/2; a
missing cell becomes the null numeric value (not zero); and a
non-empty, non-null, non-numeric value fails with `NumericParseError`. -/
theorem numeric_coercion_comma_decimal :
    coerceNumeric (some "12,5") = .ok (some ((25 : ℚ) / 2)) ∧
    coerceNumeric (some "12,5") = coerceNumeric (some "12.5") ∧
    coerceNumeric none = .ok none ∧
    coerceNumeric none ≠ .ok (some 0) ∧
    coerceNumeric (some "ABC") = .error "NumericParseError" := by
  refine ⟨?_, ?_, rfl, ?_, rfl⟩
  · have h1 : coerceNumeric (some "12,5")
        = .ok (some ((natOfDigits ['1', '2'] : ℚ) + (natOfDigits ['5'] : ℚ) / (10 ^ 1))) := rfl
    have h2 : natOfDigits ['1', '2'] = 12 := by decide
    have h3 : natOfDigits ['5'] = 5 := by decide
    rw [h1, h2, h3]
    norm_num
  · have h : replaceCommas (cellToStr (some "12,5"))
        = replaceCommas (cellToStr (some "12.5")) := by decide
    unfold coerceNumeric
    rw [h]
  · have h : coerceNumeric none = .ok none := rfl
    rw [h]
    simp

/-- C9: the merge is an inner join on the join key — for every pair of
normalized inputs, a key produces exactly one merged row when it occurs
in both grouped datasets and no row otherwise, so the merged key set is
exactly the intersection of the two grouped key sets. -/
theorem merge_is_inner_join (covRows : List NormCoverageRow) (accRows : List NormAccessRow)
    (k : JoinKey) :
    (mergeGrouped (groupCoverage covRows) (groupAccess accRows)).countP
        (fun p => decide (p.1.key = k)) =
      if k ∈ (groupCoverage covRows).map GroupedCoverageRow.key ∧
          k ∈ (groupAccess accRows).map GroupedAccessRow.key
      then 1 else 0 := by
  apply mergeGrouped_countP
  · rw [groupCoverage_map_key]; exact groupKeys_nodup _
  · rw [groupAccess_map_key]; exact groupKeys_nodup _

/-- C10: a normalized row with a null in any join-key column is
silently excluded from grouping — pre-filtering those rows away changes
neither grouped dataset — and every merged row's keys on both sides come
from input rows whose five key cells are all non-null. -/
theorem grouping_drops_null_keys (covRows : List NormCoverageRow)
    (accRows : List NormAccessRow) :
    groupCoverage covRows = groupCoverage (covRows.filter (fun r => (covKeyOf r).isSome)) ∧
    groupAccess accRows = groupAccess (accRows.filter (fun r => (accKeyOf r).isSome)) ∧
    ∀ p ∈ mergeGrouped (groupCoverage covRows) (groupAccess accRows),
      (∃ r ∈ covRows, covKeyOf r = some p.1.key) ∧
      (∃ r ∈ accRows, accKeyOf r = some p.2.key) := by
  refine ⟨?_, ?_, ?_⟩
  · rw [groupCoverage, groupCoverage, withKeys_filter_isSome]
  · rw [groupAccess, groupAccess, withKeys_filter_isSome]
  · intro p hp
    obtain ⟨h1, h2⟩ := mem_mergeGrouped hp
    constructor
    · apply exists_source_of_mem_groupKeys covKeyOf covRows
      rw [← groupCoverage_map_key]
      exact List.mem_map_of_mem _ h1
    · apply exists_source_of_mem_groupKeys accKeyOf accRows
      rw [← groupAccess_map_key]
      exact List.mem_map_of_mem _ h2

end ETL
